import Mathlib

/-!
Shallow embedding of the Concordium escrow-auction contract
(`src/lib.rs`, contract "auction") and proofs about its claims.

Machine integers (`u64` amounts, `Timestamp` milliseconds) are modelled as
`Nat`: the only arithmetic the contract performs on them is comparison,
division by 10 and a subtraction `highest_bid - commission` where the
subtrahend never exceeds the minuend, so no wrap-around can occur and the
`Nat` model is exact.

External effects (CIS-2 token transfers, native-currency transfers) are
returned as an explicit effect list; the success/failure of each external
call and of the event log is passed in as a `Bool` parameter, mirroring the
nondeterminism of the host environment.
-/

deriving instance DecidableEq for Except

namespace AuctionContract

/-- An account address of the host chain (opaque identity). -/
structure AccountAddress where
  addr : Nat
deriving DecidableEq, Repr

/-- A contract address: index and subindex, as on Concordium. -/
structure ContractAddress where
  index : Nat
  subindex : Nat
deriving DecidableEq, Repr

/-- The sender of a message: a plain account or another contract. -/
inductive Address where
  | Account (a : AccountAddress)
  | Contract (c : ContractAddress)
deriving DecidableEq, Repr

/-- The state of an auction (enum `AuctionState` in the source). -/
inductive AuctionState where
  | NotSoldYet
  | Sold (winner : AccountAddress)
deriving DecidableEq, Repr

/-- One auction record (struct `Auction` in the source).
`initial_price` is a `u64`, `highest_bid` an `Amount` in micro CCD,
`end_` the field `end` (a Lean keyword), a `Timestamp` in milliseconds. -/
structure Auction where
  auction_state : AuctionState
  highest_bidder : Option AccountAddress
  initial_price : Nat
  highest_bid : Nat
  item : String
  end_ : Nat
  owner : AccountAddress
  token_contract : ContractAddress
  token_id : Nat
  token_amount : Nat
deriving DecidableEq, Repr

/-- The contract state (struct `State` in the source). -/
structure State where
  auctions : List Auction
  commission_recipient : AccountAddress
deriving DecidableEq, Repr

/-- Parameter of `create_auction` (struct `NewAuctionParameter`). -/
structure NewAuctionParameter where
  item : String
  end_ : Nat
  initial_price : Nat
  token_contract : ContractAddress
  token_id : Nat
  token_amount : Nat
deriving DecidableEq, Repr

/-- The error enumeration `BidError` of the source, shared by all entry points. -/
inductive BidError where
  | OnlyAccount
  | BidBelowCurrentBid
  | BidBelowMinimumRaise
  | BidTooLate
  | AuctionAlreadyFinalized
  | AuctionNotFound
  | ParameterParsingError
  | AuctionStillActive
  | TransferFailed
  | OnlyNotOwner
deriving DecidableEq, Repr

/-- An externally visible effect of an entry point: an attempted CIS-2
token transfer (`Cis2Client::transfer`) or a native-currency transfer
(`host.invoke_transfer`). -/
inductive Effect where
  | cis2Transfer (contract : ContractAddress) (token_id : Nat) (amount : Nat)
      (src : Address) (dst : Address)
  | ccdTransfer (dst : AccountAddress) (amount : Nat)
deriving DecidableEq, Repr

/-- Whether an effect is a native-currency transfer. -/
def Effect.isCurrencyTransfer : Effect → Bool
  | .ccdTransfer _ _ => true
  | _ => false

/-- `auction_init`: the init function; starts with an empty auction list and
records the deployer as commission recipient. -/
def auction_init (init_origin : AccountAddress) : State :=
  { auctions := [], commission_recipient := init_origin }

/-- The fresh auction record built by `create_auction` (source lines
110-121): state `NotSoldYet`, no bidder, zero highest bid, all other fields
taken from the parameter, the owner being the calling account. -/
def newAuction (parameter : NewAuctionParameter) (owner : AccountAddress) : Auction :=
  { auction_state := AuctionState.NotSoldYet
    highest_bidder := none
    initial_price := parameter.initial_price
    highest_bid := 0
    item := parameter.item
    end_ := parameter.end_
    owner := owner
    token_contract := parameter.token_contract
    token_id := parameter.token_id
    token_amount := parameter.token_amount }

/-- `create_auction` (source lines 82-131).  The CIS-2 escrow transfer is
attempted and its result (`_transfer_result`) is IGNORED by the source (the
error-propagation code is commented out there); the new auction is appended
unconditionally; the registration event log failure maps to `TransferFailed`.
The slot time is available in the context but never consulted
(`_slot_time`). -/
def create_auction (state : State) (sender : Address) (self_address : ContractAddress)
    (_slot_time : Nat) (parameter : NewAuctionParameter)
    (_transfer_result : Bool) (log_ok : Bool) :
    Except BidError (State × List Effect) :=
  match sender with
  | Address.Contract _ => .error .OnlyAccount
  | Address.Account owner =>
    if log_ok then
      .ok ({ state with auctions := state.auctions ++ [newAuction parameter owner] },
           [Effect.cis2Transfer parameter.token_contract parameter.token_id
              parameter.token_amount (Address.Account owner)
              (Address.Contract self_address)])
    else .error .TransferFailed

/-- The acceptance tail of `auction_bid` (source lines 202-216): the
previous highest bid and bidder are recorded (`previous_highest_bid`,
`prev_highest_bidder` in the source), the auction record is overwritten in
place with the new bid and bidder, and the previous highest bidder, if any,
is refunded the previous bid amount via `host.invoke_transfer`. -/
def bid_accept (state : State) (auction_id : Nat) (auction : Auction)
    (sender_address : AccountAddress) (amount : Nat) :
    Except BidError (State × List Effect) :=
  match auction.highest_bidder with
  | some prev_bidder =>
    .ok ({ state with
           auctions := state.auctions.set auction_id
             { auction with highest_bid := amount,
                            highest_bidder := some sender_address } },
         [Effect.ccdTransfer prev_bidder auction.highest_bid])
  | none =>
    .ok ({ state with
           auctions := state.auctions.set auction_id
             { auction with highest_bid := amount,
                            highest_bidder := some sender_address } },
         [])

/-- `auction_bid` (source lines 165-217).  Checks are performed in source
order: lookup, finalization state, deadline (`slot_time <= end`), sender is
an account, sender is not the owner, then the price check (against
`initial_price` when `highest_bid == 0`, against `highest_bid` otherwise).
On acceptance the auction record is updated in place and the previous
highest bidder, if any, is refunded their bid (the source uses
`unwrap_abort` on the refund, so its failure aborts the transaction and is
outside the error model). -/
def auction_bid (state : State) (auction_id : Nat) (sender : Address)
    (slot_time : Nat) (amount : Nat) :
    Except BidError (State × List Effect) :=
  match state.auctions[auction_id]? with
  | none => .error .AuctionNotFound
  | some auction =>
    if auction.auction_state = AuctionState.NotSoldYet then
      if slot_time ≤ auction.end_ then
        match sender with
        | Address.Contract _ => .error .OnlyAccount
        | Address.Account sender_address =>
          if auction.owner ≠ sender_address then
            if auction.highest_bid = 0 then
              if auction.initial_price < amount then
                bid_accept state auction_id auction sender_address amount
              else .error .BidBelowCurrentBid
            else
              if auction.highest_bid < amount then
                bid_accept state auction_id auction sender_address amount
              else .error .BidBelowCurrentBid
          else .error .OnlyNotOwner
      else .error .BidTooLate
    else .error .AuctionAlreadyFinalized

/-- `auction_finalize` (source lines 245-299).  The auction is CLONED out of
the registry and never written back; in particular the transition to `Sold`
is commented out in the source, so the stored state is unchanged on success.
In the winner branch: the CIS-2 token is transferred to the winner, the
transfer result is only logged (`_token_transfer_result`; a log failure maps
to `TransferFailed`), then the commission (`highest_bid / 10`) and the
remainder are paid out as two currency transfers, either failure mapping to
`TransferFailed`.  In the no-bidder branch the token goes back to the owner
and only the log can fail. -/
def auction_finalize (state : State) (auction_id : Nat) (slot_time : Nat)
    (self_address : ContractAddress) (_token_transfer_result : Bool) (log_ok : Bool)
    (commission_transfer_ok : Bool) (owner_transfer_ok : Bool) :
    Except BidError (State × List Effect) :=
  match state.auctions[auction_id]? with
  | none => .error .AuctionNotFound
  | some auction =>
    if auction.auction_state = AuctionState.NotSoldYet then
      if auction.end_ < slot_time then
        match auction.highest_bidder with
        | some winning_bidder =>
          if log_ok then
            if commission_transfer_ok then
              if owner_transfer_ok then
                .ok (state,
                  [Effect.cis2Transfer auction.token_contract auction.token_id
                     auction.token_amount (Address.Contract self_address)
                     (Address.Account winning_bidder),
                   Effect.ccdTransfer state.commission_recipient
                     (auction.highest_bid / 10),
                   Effect.ccdTransfer auction.owner
                     (auction.highest_bid - auction.highest_bid / 10)])
              else .error .TransferFailed
            else .error .TransferFailed
          else .error .TransferFailed
        | none =>
          if log_ok then
            .ok (state,
              [Effect.cis2Transfer auction.token_contract auction.token_id
                 auction.token_amount (Address.Contract self_address)
                 (Address.Account auction.owner)])
          else .error .TransferFailed
      else .error .AuctionStillActive
    else .error .AuctionAlreadyFinalized

/-! ## Helper lemmas -/

/-- `bid_accept` always succeeds, with the auction updated in place and the
refund effect present exactly when a previous bidder existed. -/
theorem bid_accept_eq (state : State) (auction_id : Nat) (auction : Auction)
    (acc : AccountAddress) (amount : Nat) :
    bid_accept state auction_id auction acc amount =
      .ok ({ state with
             auctions := state.auctions.set auction_id
               { auction with highest_bid := amount, highest_bidder := some acc } },
           (match auction.highest_bidder with
            | some prev => [Effect.ccdTransfer prev auction.highest_bid]
            | none => [])) := by
  unfold bid_accept
  cases auction.highest_bidder <;> rfl

/-- Inversion for a successful bid: all guards held and the result is the
acceptance tail. -/
theorem auction_bid_ok_elim {state : State} {auction_id : Nat} {sender : Address}
    {slot_time amount : Nat} {s' : State} {effs : List Effect}
    (h : auction_bid state auction_id sender slot_time amount = .ok (s', effs)) :
    ∃ auction acc,
      state.auctions[auction_id]? = some auction ∧
      auction.auction_state = AuctionState.NotSoldYet ∧
      slot_time ≤ auction.end_ ∧
      sender = Address.Account acc ∧
      auction.owner ≠ acc ∧
      (if auction.highest_bid = 0 then auction.initial_price < amount
       else auction.highest_bid < amount) ∧
      bid_accept state auction_id auction acc amount = .ok (s', effs) := by
  unfold auction_bid at h
  split at h
  · exact absurd h (by simp)
  · rename_i auction hget
    split at h
    · rename_i hstate
      split at h
      · rename_i htime
        split at h
        · exact absurd h (by simp)
        · rename_i acc
          split at h
          · rename_i howner
            split at h
            · rename_i hzero
              split at h
              · rename_i hprice
                exact ⟨auction, acc, hget, hstate, htime, rfl, howner,
                  by simp [hzero, hprice], h⟩
              · exact absurd h (by simp)
            · rename_i hzero
              split at h
              · rename_i hlt
                exact ⟨auction, acc, hget, hstate, htime, rfl, howner,
                  by simp [hzero, hlt], h⟩
              · exact absurd h (by simp)
          · exact absurd h (by simp)
      · exact absurd h (by simp)
    · exact absurd h (by simp)

/-- Inversion for a successful creation: the sender was an account, the log
succeeded, and the new auction was appended. -/
theorem create_auction_ok_elim {state : State} {sender : Address}
    {self_address : ContractAddress} {slot_time : Nat} {p : NewAuctionParameter}
    {tr log_ok : Bool} {s' : State} {effs : List Effect}
    (h : create_auction state sender self_address slot_time p tr log_ok =
      .ok (s', effs)) :
    ∃ owner, sender = Address.Account owner ∧
      s' = { state with auctions := state.auctions ++ [newAuction p owner] } := by
  unfold create_auction at h
  split at h
  · exact absurd h (by simp)
  · rename_i owner
    split at h
    · refine ⟨owner, rfl, ?_⟩
      have h2 := Except.ok.inj h
      exact (congrArg Prod.fst h2).symm
    · exact absurd h (by simp)

/-- A successful finalize never changes the contract state: the source
works on a clone of the auction and the `Sold` write is commented out. -/
theorem auction_finalize_ok_state {state : State} {auction_id slot_time : Nat}
    {self_address : ContractAddress} {tr log_ok c_ok o_ok : Bool}
    {s' : State} {effs : List Effect}
    (h : auction_finalize state auction_id slot_time self_address tr log_ok c_ok o_ok =
      .ok (s', effs)) :
    s' = state := by
  unfold auction_finalize at h
  repeat' split at h
  all_goals simp_all

/-- A successful bid attaches a strictly positive amount. -/
theorem auction_bid_ok_pos {state : State} {auction_id : Nat} {sender : Address}
    {slot_time amount : Nat} {s' : State} {effs : List Effect}
    (h : auction_bid state auction_id sender slot_time amount = .ok (s', effs)) :
    0 < amount := by
  obtain ⟨auction, acc, _, _, _, _, _, hcond, _⟩ := auction_bid_ok_elim h
  split at hcond <;> omega

/-- The states reachable through the contract's entry points: the initial
state of `auction_init`, extended by each successful `create_auction`,
`auction_bid` or `auction_finalize` call (an erroring call is rolled back
by the host and leaves no state change). -/
inductive Reachable : State → Prop where
  | init (origin : AccountAddress) : Reachable (auction_init origin)
  | create {s s' : State} {effs : List Effect} (h : Reachable s)
      (sender : Address) (self_address : ContractAddress) (slot_time : Nat)
      (p : NewAuctionParameter) (tr log_ok : Bool)
      (hok : create_auction s sender self_address slot_time p tr log_ok =
        .ok (s', effs)) :
      Reachable s'
  | bid {s s' : State} {effs : List Effect} (h : Reachable s)
      (auction_id : Nat) (sender : Address) (slot_time amount : Nat)
      (hok : auction_bid s auction_id sender slot_time amount = .ok (s', effs)) :
      Reachable s'
  | finalize {s s' : State} {effs : List Effect} (h : Reachable s)
      (auction_id slot_time : Nat) (self_address : ContractAddress)
      (tr log_ok c_ok o_ok : Bool)
      (hok : auction_finalize s auction_id slot_time self_address tr log_ok c_ok o_ok =
        .ok (s', effs)) :
      Reachable s'

/-- Unfolding of `auction_bid` once the looked-up auction is known. -/
theorem auction_bid_eq_of_get {state : State} {auction_id : Nat} {auction : Auction}
    {sender : Address} {slot_time amount : Nat}
    (hget : state.auctions[auction_id]? = some auction) :
    auction_bid state auction_id sender slot_time amount =
      (if auction.auction_state = AuctionState.NotSoldYet then
        if slot_time ≤ auction.end_ then
          match sender with
          | Address.Contract _ => .error .OnlyAccount
          | Address.Account sender_address =>
            if auction.owner ≠ sender_address then
              if auction.highest_bid = 0 then
                if auction.initial_price < amount then
                  bid_accept state auction_id auction sender_address amount
                else .error .BidBelowCurrentBid
              else
                if auction.highest_bid < amount then
                  bid_accept state auction_id auction sender_address amount
                else .error .BidBelowCurrentBid
            else .error .OnlyNotOwner
        else .error .BidTooLate
      else .error .AuctionAlreadyFinalized) := by
  unfold auction_bid
  rw [hget]

/-- Unfolding of `auction_finalize` once the looked-up auction is known. -/
theorem auction_finalize_eq_of_get {state : State} {auction_id slot_time : Nat}
    {auction : Auction} {self_address : ContractAddress}
    {tr log_ok c_ok o_ok : Bool}
    (hget : state.auctions[auction_id]? = some auction) :
    auction_finalize state auction_id slot_time self_address tr log_ok c_ok o_ok =
      (if auction.auction_state = AuctionState.NotSoldYet then
        if auction.end_ < slot_time then
          match auction.highest_bidder with
          | some winning_bidder =>
            if log_ok then
              if c_ok then
                if o_ok then
                  .ok (state,
                    [Effect.cis2Transfer auction.token_contract auction.token_id
                       auction.token_amount (Address.Contract self_address)
                       (Address.Account winning_bidder),
                     Effect.ccdTransfer state.commission_recipient
                       (auction.highest_bid / 10),
                     Effect.ccdTransfer auction.owner
                       (auction.highest_bid - auction.highest_bid / 10)])
                else .error .TransferFailed
              else .error .TransferFailed
            else .error .TransferFailed
          | none =>
            if log_ok then
              .ok (state,
                [Effect.cis2Transfer auction.token_contract auction.token_id
                   auction.token_amount (Address.Contract self_address)
                   (Address.Account auction.owner)])
            else .error .TransferFailed
        else .error .AuctionStillActive
      else .error .AuctionAlreadyFinalized) := by
  unfold auction_finalize
  rw [hget]

/-- `auction_bid` with a contract sender, once the auction is known. -/
theorem auction_bid_contract_eq {state : State} {auction_id : Nat}
    {auction : Auction} {c : ContractAddress} {slot_time amount : Nat}
    (hget : state.auctions[auction_id]? = some auction) :
    auction_bid state auction_id (Address.Contract c) slot_time amount =
      (if auction.auction_state = AuctionState.NotSoldYet then
        if slot_time ≤ auction.end_ then .error .OnlyAccount
        else .error .BidTooLate
      else .error .AuctionAlreadyFinalized) := by
  rw [auction_bid_eq_of_get hget]

/-- `auction_bid` with an account sender, once the auction is known. -/
theorem auction_bid_account_eq {state : State} {auction_id : Nat}
    {auction : Auction} {acc : AccountAddress} {slot_time amount : Nat}
    (hget : state.auctions[auction_id]? = some auction) :
    auction_bid state auction_id (Address.Account acc) slot_time amount =
      (if auction.auction_state = AuctionState.NotSoldYet then
        if slot_time ≤ auction.end_ then
          if auction.owner ≠ acc then
            if auction.highest_bid = 0 then
              if auction.initial_price < amount then
                bid_accept state auction_id auction acc amount
              else .error .BidBelowCurrentBid
            else
              if auction.highest_bid < amount then
                bid_accept state auction_id auction acc amount
              else .error .BidBelowCurrentBid
          else .error .OnlyNotOwner
        else .error .BidTooLate
      else .error .AuctionAlreadyFinalized) := by
  rw [auction_bid_eq_of_get hget]

/-! ## Concrete sample data, used to instantiate the general theorems -/

/-- Sample account: the deployer, hence the commission recipient. -/
def acctA : AccountAddress := ⟨0⟩

/-- Sample account: an auction owner. -/
def acctB : AccountAddress := ⟨1⟩

/-- Sample account: a first bidder. -/
def acctC : AccountAddress := ⟨2⟩

/-- Sample account: a second bidder. -/
def acctD : AccountAddress := ⟨3⟩

/-- Sample CIS-2 token contract address. -/
def tokenC : ContractAddress := ⟨7, 0⟩

/-- Sample self address of the auction contract. -/
def selfC : ContractAddress := ⟨9, 0⟩

/-- Sample creation parameter: initial price 100, deadline 100. -/
def sampleParam : NewAuctionParameter :=
  { item := "item", end_ := 100, initial_price := 100,
    token_contract := tokenC, token_id := 1, token_amount := 5 }

/-- The freshly created sample auction owned by `acctB`. -/
def sampleAuction : Auction := newAuction sampleParam acctB

/-- State holding exactly the fresh sample auction. -/
def sampleState : State :=
  { auctions := [sampleAuction], commission_recipient := acctA }

/-- The sample auction after a 150 micro-CCD bid by `acctC`. -/
def biddedAuction : Auction :=
  { sampleAuction with highest_bid := 150, highest_bidder := some acctC }

/-- State holding exactly the bid-upon sample auction. -/
def biddedState : State :=
  { auctions := [biddedAuction], commission_recipient := acctA }

/-! ## Claim theorems -/

/-- A successful bid preserves the bid/bidder correspondence invariant. -/
theorem auction_bid_preserves_inv {s s' : State} {auction_id : Nat}
    {sender : Address} {slot_time amount : Nat} {effs : List Effect}
    (hok : auction_bid s auction_id sender slot_time amount = .ok (s', effs))
    (ih : ∀ a ∈ s.auctions, (a.highest_bid = 0 ↔ a.highest_bidder = none)) :
    ∀ a ∈ s'.auctions, (a.highest_bid = 0 ↔ a.highest_bidder = none) := by
  have hpos := auction_bid_ok_pos hok
  obtain ⟨auction, acc, hget, _, _, _, _, _, hacc⟩ := auction_bid_ok_elim hok
  rw [bid_accept_eq] at hacc
  have hs' : ({ s with
      auctions := s.auctions.set auction_id
        { auction with highest_bid := amount, highest_bidder := some acc } } : State)
      = s' :=
    congrArg Prod.fst (Except.ok.inj hacc)
  intro a ha
  have ha2 : a ∈ s.auctions.set auction_id
      { auction with highest_bid := amount, highest_bidder := some acc } := by
    rw [← hs'] at ha
    exact ha
  rcases List.mem_or_eq_of_mem_set ha2 with hmem | hmem
  · exact ih a hmem
  · subst hmem; simp; omega

/-- Claim C8: in every state reachable through init, create_auction, bid and
finalize, every auction in the registry satisfies
`highest_bid == 0` if and only if `highest_bidder == None`. -/
theorem reachable_bid_zero_iff_no_bidder {s : State} (h : Reachable s) :
    ∀ a ∈ s.auctions, (a.highest_bid = 0 ↔ a.highest_bidder = none) := by
  induction h with
  | init origin => intro a ha; simp [auction_init] at ha
  | create hr sender self_address slot_time p tr log_ok hok ih =>
    obtain ⟨owner, _, hs'⟩ := create_auction_ok_elim hok
    subst hs'
    intro a ha
    simp only [List.mem_append, List.mem_singleton] at ha
    rcases ha with ha | ha
    · exact ih a ha
    · subst ha; simp [newAuction]
  | bid hr auction_id sender slot_time amount hok ih =>
    exact auction_bid_preserves_inv hok ih
  | finalize hr auction_id slot_time self_address tr log_ok c_ok o_ok hok ih =>
    rw [auction_finalize_ok_state hok]
    exact ih

/-- Witness for C8: the invariant holds for the one auction of the concrete
state reached by deploying and creating one auction. -/
theorem reachable_bid_zero_iff_no_bidder_wit :
    ((newAuction sampleParam acctB).highest_bid = 0 ↔
      (newAuction sampleParam acctB).highest_bidder = none) :=
  reachable_bid_zero_iff_no_bidder
    (Reachable.create (Reachable.init acctA) (Address.Account acctB) selfC 0
      sampleParam true true rfl)
    (newAuction sampleParam acctB) (by simp)

/-- Claim C1 (code defect): after a successful finalize of an auction with a
highest bidder, the auction stored in the registry is still `NotSoldYet` —
the `Sold(winner)` write is commented out in the source and the cloned
auction is never written back — so a second finalize on the same auction
does not fail `AuctionAlreadyFinalized`; it succeeds and pays out again. -/
theorem finalize_sold_state_not_persisted :
    auction_finalize biddedState 0 101 selfC true true true true =
      .ok (biddedState,
        [Effect.cis2Transfer tokenC 1 5 (Address.Contract selfC)
           (Address.Account acctC),
         Effect.ccdTransfer acctA 15,
         Effect.ccdTransfer acctB 135]) ∧
    (biddedState.auctions[0]?).map Auction.auction_state =
      some AuctionState.NotSoldYet ∧
    auction_finalize biddedState 0 102 selfC true true true true ≠
      .error .AuctionAlreadyFinalized ∧
    auction_finalize biddedState 0 102 selfC true true true true =
      .ok (biddedState,
        [Effect.cis2Transfer tokenC 1 5 (Address.Contract selfC)
           (Address.Account acctC),
         Effect.ccdTransfer acctA 15,
         Effect.ccdTransfer acctB 135]) :=
  ⟨by decide, by decide, by decide, by decide⟩

/-- Claim C2 (code defect): `create_auction` ignores the result of the
escrow token transfer — the error propagation is commented out in the
source — so a failed transfer still yields success with the auction
appended, never `TransferFailed`. -/
theorem create_auction_absorbs_transfer_failure :
    create_auction (auction_init acctA) (Address.Account acctB) selfC 0
        sampleParam false true =
      .ok ({ auctions := [sampleAuction], commission_recipient := acctA },
           [Effect.cis2Transfer tokenC 1 5 (Address.Account acctB)
              (Address.Contract selfC)]) ∧
    create_auction (auction_init acctA) (Address.Account acctB) selfC 0
        sampleParam false true ≠ .error .TransferFailed :=
  ⟨by decide, by decide⟩

/-- Claim C3: a successful finalize of an auction with a highest bidder and
winning bid `V = highest_bid` pays exactly `V / 10` (truncating integer
division) to the commission recipient and `V - V / 10` to the owner, as two
separate currency transfers, and the two amounts always sum to `V`. -/
theorem finalize_commission_split
    (state : State) (auction_id : Nat) (auction : Auction)
    (winner : AccountAddress) (slot_time : Nat) (self_address : ContractAddress)
    (tr : Bool)
    (hget : state.auctions[auction_id]? = some auction)
    (hstate : auction.auction_state = AuctionState.NotSoldYet)
    (htime : auction.end_ < slot_time)
    (hbidder : auction.highest_bidder = some winner) :
    auction_finalize state auction_id slot_time self_address tr true true true =
      .ok (state,
        [Effect.cis2Transfer auction.token_contract auction.token_id
           auction.token_amount (Address.Contract self_address)
           (Address.Account winner),
         Effect.ccdTransfer state.commission_recipient (auction.highest_bid / 10),
         Effect.ccdTransfer auction.owner
           (auction.highest_bid - auction.highest_bid / 10)]) ∧
    auction.highest_bid / 10 + (auction.highest_bid - auction.highest_bid / 10) =
      auction.highest_bid := by
  constructor
  · unfold auction_finalize
    rw [hget]
    simp [hstate, htime, hbidder]
  · omega

/-- Witness for C3: the concrete bid-upon sample auction (winning bid 150)
pays 15 to the commission recipient and 135 to the owner. -/
theorem finalize_commission_split_wit :
    auction_finalize biddedState 0 101 selfC true true true true =
      .ok (biddedState,
        [Effect.cis2Transfer biddedAuction.token_contract biddedAuction.token_id
           biddedAuction.token_amount (Address.Contract selfC)
           (Address.Account acctC),
         Effect.ccdTransfer biddedState.commission_recipient
           (biddedAuction.highest_bid / 10),
         Effect.ccdTransfer biddedAuction.owner
           (biddedAuction.highest_bid - biddedAuction.highest_bid / 10)]) ∧
    biddedAuction.highest_bid / 10 +
        (biddedAuction.highest_bid - biddedAuction.highest_bid / 10) =
      biddedAuction.highest_bid :=
  finalize_commission_split biddedState 0 biddedAuction acctC 101 selfC true
    rfl rfl (by decide) rfl

/-- Claim C7: finalizing an auction with no highest bidder, in state
`NotSoldYet` and strictly after its deadline, issues exactly one escrowed
token transfer — of the full `token_amount`, to the owner — and no currency
transfer at all. -/
theorem finalize_no_bids_returns_token
    (state : State) (auction_id slot_time : Nat) (self_address : ContractAddress)
    (tr c_ok o_ok : Bool) (auction : Auction)
    (hget : state.auctions[auction_id]? = some auction)
    (hstate : auction.auction_state = AuctionState.NotSoldYet)
    (htime : auction.end_ < slot_time)
    (hbidder : auction.highest_bidder = none) :
    auction_finalize state auction_id slot_time self_address tr true c_ok o_ok =
      .ok (state,
        [Effect.cis2Transfer auction.token_contract auction.token_id
           auction.token_amount (Address.Contract self_address)
           (Address.Account auction.owner)]) ∧
    List.filter (fun e => e.isCurrencyTransfer)
        [Effect.cis2Transfer auction.token_contract auction.token_id
           auction.token_amount (Address.Contract self_address)
           (Address.Account auction.owner)] = [] := by
  constructor
  · unfold auction_finalize
    rw [hget]
    simp [hstate, htime, hbidder]
  · simp [Effect.isCurrencyTransfer]

/-- Witness for C7: finalizing the fresh sample auction (no bids) at time
101 returns the 5 escrowed tokens to the owner and nothing else. -/
theorem finalize_no_bids_returns_token_wit :
    auction_finalize sampleState 0 101 selfC true true false false =
      .ok (sampleState,
        [Effect.cis2Transfer sampleAuction.token_contract sampleAuction.token_id
           sampleAuction.token_amount (Address.Contract selfC)
           (Address.Account sampleAuction.owner)]) ∧
    List.filter (fun e => e.isCurrencyTransfer)
        [Effect.cis2Transfer sampleAuction.token_contract sampleAuction.token_id
           sampleAuction.token_amount (Address.Contract selfC)
           (Address.Account sampleAuction.owner)] = [] :=
  finalize_no_bids_returns_token sampleState 0 101 selfC true false false
    sampleAuction rfl rfl (by decide) rfl

/-- Claim C9: a failure of the escrowed-token transfer during finalize (in
either branch) never causes finalize to return an error — the result is only
logged — so, with the log and the currency transfers succeeding, finalize
returns success, and indeed the very same result as when the token transfer
succeeds. -/
theorem finalize_ignores_token_transfer_failure
    (state : State) (auction_id slot_time : Nat) (self_address : ContractAddress)
    (auction : Auction)
    (hget : state.auctions[auction_id]? = some auction)
    (hstate : auction.auction_state = AuctionState.NotSoldYet)
    (htime : auction.end_ < slot_time) :
    (∃ p, auction_finalize state auction_id slot_time self_address false true
        true true = .ok p) ∧
    auction_finalize state auction_id slot_time self_address false true
        true true =
      auction_finalize state auction_id slot_time self_address true true
        true true := by
  unfold auction_finalize
  rw [hget]
  simp only [hstate, htime]
  cases hb : auction.highest_bidder <;> simp [hstate, htime, hb]

/-- Witness for C9: finalizing the bid-upon sample auction with a failed
token transfer still succeeds, with the same result as a successful one. -/
theorem finalize_ignores_token_transfer_failure_wit :
    (∃ p, auction_finalize biddedState 0 101 selfC false true true true =
      .ok p) ∧
    auction_finalize biddedState 0 101 selfC false true true true =
      auction_finalize biddedState 0 101 selfC true true true true :=
  finalize_ignores_token_transfer_failure biddedState 0 101 selfC biddedAuction
    rfl rfl (by decide)

/-- Claim C4: for every pair of successful bids b1 then b2 on the same
auction, b2's amount strictly exceeds b1's; accepting b2 refunds b1's
account exactly b1's amount (the previous `highest_bid`); and afterwards the
stored auction carries b2's amount and account. -/
theorem bid_monotonic_and_refund
    {s s1 s2 : State} {auction_id : Nat} {acc1 acc2 : AccountAddress}
    {t1 t2 a1 a2 : Nat} {e1 e2 : List Effect}
    (h1 : auction_bid s auction_id (Address.Account acc1) t1 a1 = .ok (s1, e1))
    (h2 : auction_bid s1 auction_id (Address.Account acc2) t2 a2 = .ok (s2, e2)) :
    a1 < a2 ∧ e2 = [Effect.ccdTransfer acc1 a1] ∧
    ∃ a, s2.auctions[auction_id]? = some a ∧
      a.highest_bid = a2 ∧ a.highest_bidder = some acc2 := by
  obtain ⟨au1, b1, hget1, _, _, hsend1, _, hcond1, hacc1⟩ := auction_bid_ok_elim h1
  injection hsend1 with hb1
  subst hb1
  rw [bid_accept_eq] at hacc1
  have hs1 : ({ s with
      auctions := s.auctions.set auction_id
        { au1 with highest_bid := a1, highest_bidder := some acc1 } } : State)
      = s1 :=
    congrArg Prod.fst (Except.ok.inj hacc1)
  have hlen1 : auction_id < s.auctions.length :=
    (List.getElem?_eq_some_iff.mp hget1).1
  have hget1' : s1.auctions[auction_id]? =
      some { au1 with highest_bid := a1, highest_bidder := some acc1 } := by
    rw [← hs1]
    exact List.getElem?_set_self hlen1
  obtain ⟨au2, b2, hget2, _, _, hsend2, _, hcond2, hacc2⟩ := auction_bid_ok_elim h2
  injection hsend2 with hb2
  subst hb2
  rw [hget1'] at hget2
  injection hget2 with hau2
  have hbid2 : au2.highest_bid = a1 := by rw [← hau2]
  have hbidder2 : au2.highest_bidder = some acc1 := by rw [← hau2]
  have hpos : 0 < a1 := by split at hcond1 <;> omega
  rw [hbid2] at hcond2
  rw [if_neg (by omega : ¬ a1 = 0)] at hcond2
  rw [bid_accept_eq, hbidder2, hbid2] at hacc2
  have h2inj := Except.ok.inj hacc2
  have hs2 : ({ s1 with
      auctions := s1.auctions.set auction_id
        { au2 with highest_bid := a2, highest_bidder := some acc2 } } : State)
      = s2 :=
    congrArg Prod.fst h2inj
  have he2 : ([Effect.ccdTransfer acc1 a1] : List Effect) = e2 :=
    congrArg Prod.snd h2inj
  have hlen2 : auction_id < s1.auctions.length := by
    rw [← hs1]
    simpa using hlen1
  refine ⟨hcond2, he2.symm,
    ⟨{ au2 with highest_bid := a2, highest_bidder := some acc2 }, ?_, rfl, rfl⟩⟩
  rw [← hs2]
  exact List.getElem?_set_self hlen2

/-- The sample auction after a further 200 micro-CCD bid by `acctD`. -/
def secondBidAuction : Auction :=
  { biddedAuction with highest_bid := 200, highest_bidder := some acctD }

/-- State holding exactly the twice-bid-upon sample auction. -/
def secondBidState : State :=
  { auctions := [secondBidAuction], commission_recipient := acctA }

/-- Witness for C4: on the sample auction, acctC bids 150, then acctD bids
200; the second bid exceeds the first, refunds acctC exactly 150, and the
auction then records 200 and acctD. -/
theorem bid_monotonic_and_refund_wit :
    150 < 200 ∧
    ([Effect.ccdTransfer acctC 150] : List Effect) =
      [Effect.ccdTransfer acctC 150] ∧
    ∃ a, secondBidState.auctions[0]? = some a ∧
      a.highest_bid = 200 ∧ a.highest_bidder = some acctD :=
  @bid_monotonic_and_refund sampleState biddedState secondBidState
    0 acctC acctD 10 20 150 200 [] [Effect.ccdTransfer acctC 150]
    (by decide) (by decide)

/-- Claim C5: with the lookup and state checks passing, bid fails
`BidTooLate` exactly when the slot time strictly exceeds `end` (so a bid at
exactly `end` passes the time check), and finalize fails `AuctionStillActive`
exactly when the slot time is at most `end` (so a finalize at exactly `end`
is rejected). -/
theorem bid_finalize_time_boundary
    (state : State) (auction_id : Nat) (auction : Auction) (sender : Address)
    (slot_time amount : Nat) (self_address : ContractAddress)
    (tr log_ok c_ok o_ok : Bool)
    (hget : state.auctions[auction_id]? = some auction)
    (hstate : auction.auction_state = AuctionState.NotSoldYet) :
    (auction_bid state auction_id sender slot_time amount =
        .error .BidTooLate ↔ auction.end_ < slot_time) ∧
    (auction_finalize state auction_id slot_time self_address tr log_ok c_ok o_ok =
        .error .AuctionStillActive ↔ slot_time ≤ auction.end_) := by
  constructor
  · cases sender with
    | Contract c =>
      rw [auction_bid_contract_eq hget, if_pos hstate]
      by_cases ht : slot_time ≤ auction.end_
      · rw [if_pos ht]
        constructor
        · intro hEq; exact absurd hEq (by simp)
        · intro hlt; exact absurd ht (by omega)
      · rw [if_neg ht]
        exact ⟨fun _ => by omega, fun _ => rfl⟩
    | Account acc =>
      rw [auction_bid_account_eq hget, if_pos hstate]
      by_cases ht : slot_time ≤ auction.end_
      · rw [if_pos ht]
        constructor
        · intro hEq
          exfalso
          by_cases ho : auction.owner ≠ acc
          · rw [if_pos ho] at hEq
            by_cases hz : auction.highest_bid = 0
            · rw [if_pos hz] at hEq
              by_cases hp : auction.initial_price < amount
              · rw [if_pos hp, bid_accept_eq] at hEq; exact Except.noConfusion hEq
              · rw [if_neg hp] at hEq; simp at hEq
            · rw [if_neg hz] at hEq
              by_cases hq : auction.highest_bid < amount
              · rw [if_pos hq, bid_accept_eq] at hEq; exact Except.noConfusion hEq
              · rw [if_neg hq] at hEq; simp at hEq
          · rw [if_neg ho] at hEq; simp at hEq
        · intro hlt; exact absurd ht (by omega)
      · rw [if_neg ht]
        exact ⟨fun _ => by omega, fun _ => rfl⟩
  · rw [auction_finalize_eq_of_get hget, if_pos hstate]
    by_cases ht : auction.end_ < slot_time
    · rw [if_pos ht]
      constructor
      · intro hEq
        exfalso
        cases log_ok <;> cases c_ok <;> cases o_ok <;>
          rcases hbd : auction.highest_bidder with _ | w <;>
            rw [hbd] at hEq <;> simp at hEq
      · intro hle; exact absurd ht (by omega)
    · rw [if_neg ht]
      exact ⟨fun _ => by omega, fun _ => rfl⟩

/-- Witness for C5: on the fresh sample auction (deadline 100) at slot time
101, bid fails `BidTooLate` since 100 < 101, and finalize does not fail
`AuctionStillActive` since 101 is not at most 100. -/
theorem bid_finalize_time_boundary_wit :
    (auction_bid sampleState 0 (Address.Account acctC) 101 150 =
        .error .BidTooLate ↔ sampleAuction.end_ < 101) ∧
    (auction_finalize sampleState 0 101 selfC true true true true =
        .error .AuctionStillActive ↔ 101 ≤ sampleAuction.end_) :=
  bid_finalize_time_boundary sampleState 0 sampleAuction (Address.Account acctC)
    101 150 selfC true true true true rfl rfl

/-- Claim C6: given an existing auction in state `NotSoldYet`, slot time at
most `end`, and a non-owner account caller, bid fails `BidBelowCurrentBid`
exactly when either `highest_bid = 0` and the amount is not strictly above
`initial_price`, or `highest_bid ≠ 0` and the amount is not strictly above
`highest_bid`; otherwise the bid is accepted. -/
theorem bid_below_current_bid_characterization
    (state : State) (auction_id : Nat) (auction : Auction) (acc : AccountAddress)
    (slot_time amount : Nat)
    (hget : state.auctions[auction_id]? = some auction)
    (hstate : auction.auction_state = AuctionState.NotSoldYet)
    (htime : slot_time ≤ auction.end_)
    (howner : auction.owner ≠ acc) :
    (auction_bid state auction_id (Address.Account acc) slot_time amount =
        .error .BidBelowCurrentBid ↔
      ((auction.highest_bid = 0 ∧ ¬ auction.initial_price < amount) ∨
       (auction.highest_bid ≠ 0 ∧ ¬ auction.highest_bid < amount))) ∧
    ((∃ p, auction_bid state auction_id (Address.Account acc) slot_time amount =
        .ok p) ↔
      ¬ ((auction.highest_bid = 0 ∧ ¬ auction.initial_price < amount) ∨
         (auction.highest_bid ≠ 0 ∧ ¬ auction.highest_bid < amount))) := by
  rw [auction_bid_account_eq hget, if_pos hstate, if_pos htime, if_pos howner]
  by_cases hz : auction.highest_bid = 0 <;>
    by_cases hp : auction.initial_price < amount <;>
      by_cases hq : auction.highest_bid < amount <;>
        simp [hz, hp, hq, bid_accept_eq]

/-- Witness for C6: on the fresh sample auction (initial price 100, no bids
yet), a bid of exactly 100 from acctC fails `BidBelowCurrentBid` and is not
accepted. -/
theorem bid_below_current_bid_characterization_wit :
    (auction_bid sampleState 0 (Address.Account acctC) 50 100 =
        .error .BidBelowCurrentBid ↔
      ((sampleAuction.highest_bid = 0 ∧ ¬ sampleAuction.initial_price < 100) ∨
       (sampleAuction.highest_bid ≠ 0 ∧ ¬ sampleAuction.highest_bid < 100))) ∧
    ((∃ p, auction_bid sampleState 0 (Address.Account acctC) 50 100 = .ok p) ↔
      ¬ ((sampleAuction.highest_bid = 0 ∧ ¬ sampleAuction.initial_price < 100) ∨
         (sampleAuction.highest_bid ≠ 0 ∧ ¬ sampleAuction.highest_bid < 100))) :=
  bid_below_current_bid_characterization sampleState 0 sampleAuction acctC 50 100
    rfl rfl (by decide) (by decide)

/-- Claim C10: `create_auction` never compares `end` with the current slot
time: even with a deadline strictly in the past, a call from a plain account
with a well-formed parameter succeeds (given only that the event log
succeeds), appending an auction on which every subsequent bid — at any slot
time from the creation time on — fails `BidTooLate`. -/
theorem create_auction_no_end_validation
    (state : State) (acc : AccountAddress) (self_address : ContractAddress)
    (now : Nat) (p : NewAuctionParameter) (tr : Bool)
    (hlate : p.end_ < now) :
    create_auction state (Address.Account acc) self_address now p tr true =
      .ok ({ state with auctions := state.auctions ++ [newAuction p acc] },
           [Effect.cis2Transfer p.token_contract p.token_id p.token_amount
              (Address.Account acc) (Address.Contract self_address)]) ∧
    (state.auctions ++ [newAuction p acc])[state.auctions.length]? =
      some (newAuction p acc) ∧
    ∀ t sender amount, now ≤ t →
      auction_bid { state with auctions := state.auctions ++ [newAuction p acc] }
        state.auctions.length sender t amount = .error .BidTooLate := by
  refine ⟨rfl, List.getElem?_concat_length _ _, ?_⟩
  intro t sender amount hts
  rw [auction_bid_eq_of_get
      (show (state.auctions ++ [newAuction p acc])[state.auctions.length]? =
        some (newAuction p acc) from List.getElem?_concat_length _ _),
    if_pos (show (newAuction p acc).auction_state = AuctionState.NotSoldYet
      from rfl),
    if_neg (show ¬ t ≤ (newAuction p acc).end_ by
      show ¬ t ≤ p.end_
      omega)]

/-- Witness for C10: creating an auction at slot time 200 whose deadline 100
is already past succeeds, and a later bid at slot time 300 on it fails
`BidTooLate`. -/
theorem create_auction_no_end_validation_wit :
    create_auction (auction_init acctA) (Address.Account acctB) selfC 200
        sampleParam true true =
      .ok ({ auctions := [newAuction sampleParam acctB],
             commission_recipient := acctA },
           [Effect.cis2Transfer tokenC 1 5 (Address.Account acctB)
              (Address.Contract selfC)]) ∧
    auction_bid sampleState 0 (Address.Account acctC) 300 500 =
      .error .BidTooLate := by
  have h := create_auction_no_end_validation (auction_init acctA) acctB selfC 200
    sampleParam true (by decide)
  exact ⟨h.1, h.2.2 300 (Address.Account acctC) 500 (by decide)⟩

end AuctionContract
